import Mathlib

/-!
Shallow embedding of `filmstro_optionsParser` (files
`filmstro_optionsParser.h` / `filmstro_optionsParser.cpp`).

The C++ parser mutates an `OwnedArray<Option>` in place; here the registry
is a `List Opt` and every operation returns the updated list explicitly.
`juce::var` is modelled by the inductive `Var` (the parser only ever stores
a string or the boolean `true`; the default-constructed var is void).
The newline-joined `errorMessage` string is modelled as the list of the
appended messages; `getErrorMessage` joins them with newlines exactly as
`appendErrorMessage` does in the source.
-/

/-- The `OptionsParser::OptionType` enumeration from the header. -/
inductive OptionType where
  | OptString
  | OptFile
  | OptInteger
  | OptDouble
  | OptBoolean
deriving DecidableEq, Repr

/-- The subset of `juce::var` used by this parser: void (default), a
string, or a boolean. -/
inductive Var where
  | void
  | str (s : String)
  | boolean (b : Bool)
deriving DecidableEq, Repr

/-- One registered argument definition (`OptionsParser::Option`).  The
constructor `Option(optId)` initialises `required`, `mustExist` and `isSet`
to `false`; the strings default-construct to empty and `value` to void. -/
structure Opt where
  optionId : String
  arg : String
  longArg : String
  helpText : String
  required : Bool
  mustExist : Bool
  type : OptionType
  value : Var
  isSet : Bool
deriving DecidableEq, Repr

/-- Embeds `Option::isOptionSet`. -/
def Opt.isOptionSet (o : Opt) : Bool :=
  o.isSet

/-- Embeds `Option::setValue`: assigns the value and marks the option as
set. -/
def setValue (o : Opt) (v : Var) : Opt :=
  { o with value := v, isSet := true }

/-- Embeds `Option::getOptionName`. -/
def getOptionName (o : Opt) : String :=
  if o.arg = "" then
    if o.longArg ≠ "" then o.longArg else o.optionId
  else if o.longArg = "" then o.arg
  else o.arg ++ " | " ++ o.longArg

/-- Embeds `juce::String::startsWith`: character-wise prefix test. -/
def startsWithStr (s pre : String) : Bool :=
  pre.data.isPrefixOf s.data

/-- Embeds `juce::String::substring(start)`: the characters from index
`start` on. -/
def substringFrom (s : String) (start : Nat) : String :=
  ⟨s.data.drop start⟩

/-- Modelled from the external JUCE library (`juce::File::isAbsolutePath`,
POSIX): a path is absolute iff it starts with the separator `/` or with a
home-relative `~`. -/
def isAbsolutePath (path : String) : Bool :=
  startsWithStr path "/" || startsWithStr path "~"

/-- Modelled from the external JUCE library:
`File::getCurrentWorkingDirectory().getChildFile(p).getFullPathName()` with
the working directory passed in explicitly; resolving a relative path
against the working directory is modelled as separator concatenation. -/
def childFilePath (cwd relPath : String) : String :=
  cwd ++ "/" ++ relPath

/-- Embeds `OptionsParser::addOption`: creates a fresh `Option(optId)`,
assigns `arg` and `type`, and appends it to the registry.  Note that the
source assigns neither `req` (the parameter is unused) nor `longArg`. -/
def addOption (options : List Opt) (optId : String) (optArg : String)
    (type : OptionType) (req : Bool) : List Opt :=
  options ++ [{ optionId := optId
                arg := optArg
                longArg := ""
                helpText := ""
                required := false
                mustExist := false
                type := type
                value := Var.void
                isSet := false }]

/-- First list element satisfying `p`, together with its index (the loops
`for (Option* o : options)` in the source return the first match). -/
def findWithIndex (p : Opt → Bool) : List Opt → Option (Nat × Opt)
  | [] => none
  | o :: os =>
    if p o then some (0, o)
    else (findWithIndex p os).map (fun r => (r.1 + 1, r.2))

/-- Embeds `OptionsParser::findOption`: resolves a token against the
registry and returns the matched option (with its index) plus the possibly
updated registry — the positional branch stores the raw token inline via
`setValue`, mutating the matched option. -/
def findOption (options : List Opt) (argument : String)
    (endOfArguments : Bool) : Option (Nat × Opt) × List Opt :=
  if !endOfArguments && startsWithStr argument "--" then
    (findWithIndex (fun o => o.longArg == substringFrom argument 2) options,
     options)
  else if !endOfArguments && startsWithStr argument "-" then
    (findWithIndex (fun o => o.arg == substringFrom argument 1) options,
     options)
  else
    match findWithIndex
        (fun o => o.arg == "" && o.longArg == "" && !o.isOptionSet) options with
    | some (i, o) =>
      (some (i, setValue o (Var.str argument)),
       options.set i (setValue o (Var.str argument)))
    | none => (none, options)

/-- Scan state of `OptionsParser::parseArguments`: the registry, the
accumulated diagnostic messages, the success flag `ok` and the local
`endOfArguments` flag. -/
structure ParseState where
  options : List Opt
  ok : Bool
  errorMessage : List String
  endOfArguments : Bool
deriving DecidableEq, Repr

/-- Embeds `OptionsParser::appendErrorMessage` (the newline joining is
recovered by `getErrorMessage`). -/
def appendErrorMessage (errorMessage : List String) (message : String) :
    List String :=
  errorMessage ++ [message]

/-- Embeds `OptionsParser::getErrorMessage`: the newline-joined diagnostic
text. -/
def getErrorMessage (errorMessage : List String) : String :=
  String.intercalate "\n" errorMessage

/-- The token loop of `OptionsParser::parseArguments` (source lines
96-141). -/
def parseLoop (failOnUnknownOption : Bool) (cwd : String) :
    List String → ParseState → ParseState
  | [], st => st
  | tok :: rest, st =>
    if tok == "--" then
      parseLoop failOnUnknownOption cwd rest { st with endOfArguments := true }
    else
      match findOption st.options tok st.endOfArguments with
      | (some (i, o), opts) =>
        if !o.isOptionSet then
          match o.type with
          | OptionType.OptBoolean =>
            parseLoop failOnUnknownOption cwd rest
              { st with options := opts.set i (setValue o (Var.boolean true)) }
          | OptionType.OptFile =>
            match rest with
            | next :: rest2 =>
              parseLoop failOnUnknownOption cwd rest2
                { st with options := opts.set i (setValue o (Var.str
                    (if isAbsolutePath next then next
                     else childFilePath cwd next))) }
            | [] =>
              parseLoop failOnUnknownOption cwd []
                { st with
                  ok := false
                  errorMessage := appendErrorMessage st.errorMessage
                    ("Missing path for argument " ++ tok) }
          | _ =>
            match rest with
            | next :: rest2 =>
              parseLoop failOnUnknownOption cwd rest2
                { st with options := opts.set i (setValue o (Var.str next)) }
            | [] =>
              parseLoop failOnUnknownOption cwd []
                { st with
                  ok := false
                  errorMessage := appendErrorMessage st.errorMessage
                    ("Missing value for argument " ++ tok) }
        else
          parseLoop failOnUnknownOption cwd rest { st with options := opts }
      | (none, _) =>
        if failOnUnknownOption then
          parseLoop failOnUnknownOption cwd rest
            { st with
              ok := false
              errorMessage := appendErrorMessage st.errorMessage
                ("Unknown option: " ++ tok) }
        else
          parseLoop failOnUnknownOption cwd rest
            { st with
              errorMessage := appendErrorMessage st.errorMessage
                ("Ignoring unknown option: " ++ tok) }

/-- The required-options pass of `parseArguments` (source lines 143-149). -/
def checkRequired : List Opt → Bool × List String → Bool × List String
  | [], r => r
  | o :: os, (ok, errs) =>
    if o.required && !o.isOptionSet then
      checkRequired os
        (false,
         appendErrorMessage errs ("Argument is required: " ++ getOptionName o))
    else
      checkRequired os (ok, errs)

/-- Applies the required-options pass to a scan state. -/
def finishRequired (st : ParseState) : ParseState :=
  { st with
    ok := (checkRequired st.options (st.ok, st.errorMessage)).1
    errorMessage := (checkRequired st.options (st.ok, st.errorMessage)).2 }

/-- The scan state reached after the token loop, starting from the cleared
state (`errorMessage.clear(); ok = true; endOfArguments = false`). -/
def scanState (options : List Opt) (arguments : List String)
    (failOnUnknownOption : Bool) (cwd : String) : ParseState :=
  parseLoop failOnUnknownOption cwd arguments
    { options := options, ok := true, errorMessage := [], endOfArguments := false }

/-- Embeds `OptionsParser::parseArguments`: clears the previous diagnostic
buffer (`prevErrorMessage` is discarded), scans the tokens, then runs the
required-options pass.  The C++ member function mutates the parser's
fields and returns `ok`; here the whole resulting state is returned. -/
def parseArguments (options : List Opt) (prevErrorMessage : List String)
    (arguments : List String) (failOnUnknownOption : Bool) (cwd : String) :
    ParseState :=
  finishRequired (scanState options arguments failOnUnknownOption cwd)

/-- Sample registry entry: a short-form string option already set to the
value supplied by its first occurrence. -/
def sampleSetOpt : Opt :=
  { optionId := "verbose", arg := "v", longArg := "", helpText := ""
    required := false, mustExist := false, type := OptionType.OptString
    value := Var.str "first", isSet := true }

/-- Sample registry entry: an unset short-form string option. -/
def sampleStrOpt : Opt :=
  { optionId := "name", arg := "n", longArg := "", helpText := ""
    required := false, mustExist := false, type := OptionType.OptString
    value := Var.void, isSet := false }

/-- Sample registry entry: an unset short-form FilePath option. -/
def sampleFileOpt : Opt :=
  { optionId := "logfile", arg := "l", longArg := "", helpText := ""
    required := false, mustExist := false, type := OptionType.OptFile
    value := Var.void, isSet := false }

/-- Sample registry entry: an unset positional (no short/long form) string
option. -/
def samplePosOpt : Opt :=
  { optionId := "pos", arg := "", longArg := "", helpText := ""
    required := false, mustExist := false, type := OptionType.OptString
    value := Var.void, isSet := false }

/-- Sample registry entry: an unset positional FilePath option. -/
def samplePosFileOpt : Opt :=
  { optionId := "posfile", arg := "", longArg := "", helpText := ""
    required := false, mustExist := false, type := OptionType.OptFile
    value := Var.void, isSet := false }

/-- Sample registry entry: a long-only boolean option (empty short form). -/
def sampleLongOnlyOpt : Opt :=
  { optionId := "help", arg := "", longArg := "help", helpText := ""
    required := false, mustExist := false, type := OptionType.OptBoolean
    value := Var.void, isSet := false }

/-- Sample registry entry: an unset required long-form string option. -/
def sampleReqOpt : Opt :=
  { optionId := "input", arg := "", longArg := "input", helpText := ""
    required := true, mustExist := false, type := OptionType.OptString
    value := Var.void, isSet := false }

/-- Registry built the way the spec example prescribes: `addOption` with
`required = true`, then the long form assigned on the returned handle. -/
def c1Options : List Opt :=
  (addOption [] "input" "" OptionType.OptString true).map
    (fun o => { o with longArg := "input" })

theorem findWithIndex_some (p : Opt → Bool) (l : List Opt) :
    ∀ i o, findWithIndex p l = some (i, o) → l[i]? = some o ∧ p o = true := by
  induction l with
  | nil => intro i o h; simp [findWithIndex] at h
  | cons a as ih =>
    intro i o h
    rw [findWithIndex] at h
    split at h
    · rename_i hp
      rw [Option.some_inj, Prod.mk.injEq] at h
      obtain ⟨h1, h2⟩ := h
      subst h1; subst h2
      exact ⟨by simp, hp⟩
    · rename_i hp
      cases hf : findWithIndex p as with
      | none => rw [hf] at h; simp at h
      | some r =>
        rw [hf] at h
        simp only [Option.map_some', Option.some_inj, Prod.mk.injEq] at h
        obtain ⟨h1, h2⟩ := h
        have hr := ih r.1 r.2 (by rw [hf])
        subst h1; subst h2
        simpa using hr

theorem findOption_cases (options : List Opt) (argument : String)
    (endOfArguments : Bool) :
    ((findOption options argument endOfArguments).2 = options ∧
     (∀ i o, (findOption options argument endOfArguments).1 = some (i, o) →
        options[i]? = some o))
    ∨ (∃ i o, options[i]? = some o ∧ o.isSet = false ∧
        (findOption options argument endOfArguments).1 =
          some (i, setValue o (Var.str argument)) ∧
        (findOption options argument endOfArguments).2 =
          options.set i (setValue o (Var.str argument))) := by
  rw [findOption]
  split
  · left
    refine ⟨rfl, fun i o h => ?_⟩
    exact (findWithIndex_some _ _ i o h).1
  · split
    · left
      refine ⟨rfl, fun i o h => ?_⟩
      exact (findWithIndex_some _ _ i o h).1
    · split
      · rename_i i o hf
        right
        have := findWithIndex_some _ _ i o hf
        refine ⟨i, o, this.1, ?_, rfl, rfl⟩
        have hp := this.2
        simp only [Bool.and_eq_true, Bool.not_eq_true'] at hp
        exact hp.2
      · left
        exact ⟨rfl, fun i o h => by simp at h⟩

theorem checkRequired_eq (os : List Opt) :
    ∀ ok errs, checkRequired os (ok, errs) =
      (ok && os.all (fun o => !(o.required && !o.isOptionSet)),
       errs ++ (os.filter (fun o => o.required && !o.isOptionSet)).map
         (fun o => "Argument is required: " ++ getOptionName o)) := by
  induction os with
  | nil => intro ok errs; simp [checkRequired]
  | cons o os ih =>
    intro ok errs
    rw [checkRequired]
    by_cases h : (o.required && !o.isOptionSet) = true
    · rw [if_pos h, ih, Prod.mk.injEq]
      constructor
      · rw [List.all_cons, h]
        simp
      · rw [List.filter_cons, if_pos h, List.map_cons, appendErrorMessage]
        simp
    · have h' : (o.required && !o.isOptionSet) = false := by
        revert h; cases (o.required && !o.isOptionSet) <;> simp
      rw [if_neg h, ih, Prod.mk.injEq]
      constructor
      · rw [List.all_cons, h']
        simp
      · rw [List.filter_cons, if_neg h]

theorem findOption_flagMatch_unset (options : List Opt) (argument : String)
    (eoa : Bool) (i : Nat) (o : Opt) (opts : List Opt)
    (hfind : findOption options argument eoa = (some (i, o), opts))
    (hunset : o.isSet = false) :
    opts = options ∧ options[i]? = some o := by
  rcases findOption_cases options argument eoa with
    ⟨hsnd, hfst⟩ | ⟨i2, o2, hget, hset2, hfst, hsnd⟩
  · rw [hfind] at hsnd hfst
    exact ⟨hsnd.symm ▸ rfl, hfst i o rfl⟩
  · rw [hfind] at hfst
    simp only [Option.some_inj, Prod.mk.injEq] at hfst
    exfalso
    rw [hfst.2] at hunset
    simp [setValue] at hunset

theorem parseLoop_frame (f : Bool) (cwd : String) (toks : List String)
    (st : ParseState) :
    (st.ok = false → (parseLoop f cwd toks st).ok = false)
    ∧ (∀ m, m ∈ st.errorMessage → m ∈ (parseLoop f cwd toks st).errorMessage)
    ∧ (∀ (j : Nat) (oj : Opt), st.options[j]? = some oj → oj.isSet = true →
        (parseLoop f cwd toks st).options[j]? = some oj) := by
  induction toks, st using parseLoop.induct f cwd with
  | case1 st =>
    exact ⟨fun h => by simpa [parseLoop] using h,
           fun m hm => by simpa [parseLoop] using hm,
           fun j oj h1 h2 => by simpa [parseLoop] using h1⟩
  | case2 tok rest st h ih =>
    rw [parseLoop, if_pos h]
    exact ⟨fun hok => ih.1 hok, fun m hm => ih.2.1 m hm,
           fun j oj h1 h2 => ih.2.2 j oj h1 h2⟩
  | case3 tok rest st h i o opts hfind hset htype ih =>
    rw [parseLoop, if_neg h, hfind]
    simp only
    rw [hset, htype]
    have hunset : o.isSet = false := by
      simp only [Opt.isOptionSet, Bool.not_eq_true'] at hset
      exact hset
    obtain ⟨ho, hgeti⟩ := findOption_flagMatch_unset _ _ _ _ _ _ hfind hunset
    subst ho
    refine ⟨fun hok => ih.1 hok, fun m hm => ih.2.1 m hm, fun j oj h1 h2 => ?_⟩
    refine ih.2.2 j oj ?_ h2
    have hne : i ≠ j := by
      intro he
      subst he
      rw [h1] at hgeti
      cases hgeti
      rw [hunset] at h2
      cases h2
    simpa [List.getElem?_set_ne hne] using h1
  | case4 tok st h i o opts hfind hset htype next rest2 ih =>
    rw [parseLoop, if_neg h, hfind]
    simp only
    rw [hset, htype]
    have hunset : o.isSet = false := by
      simp only [Opt.isOptionSet, Bool.not_eq_true'] at hset
      exact hset
    obtain ⟨ho, hgeti⟩ := findOption_flagMatch_unset _ _ _ _ _ _ hfind hunset
    subst ho
    refine ⟨fun hok => ih.1 hok, fun m hm => ih.2.1 m hm, fun j oj h1 h2 => ?_⟩
    refine ih.2.2 j oj ?_ h2
    have hne : i ≠ j := by
      intro he
      subst he
      rw [h1] at hgeti
      cases hgeti
      rw [hunset] at h2
      cases h2
    simpa [List.getElem?_set_ne hne] using h1
  | case5 tok st h i o opts hfind hset htype ih =>
    rw [parseLoop, if_neg h, hfind]
    simp only
    rw [hset, htype]
    exact ⟨fun _ => ih.1 rfl,
           fun m hm => ih.2.1 m (List.mem_append_left _ hm),
           fun j oj h1 h2 => ih.2.2 j oj h1 h2⟩
  | case6 tok st h i o opts hfind hset next rest2 hb hf ih =>
    rw [parseLoop, if_neg h, hfind]
    simp only
    rw [if_pos hset]
    have hunset : o.isSet = false := by
      simp only [Opt.isOptionSet, Bool.not_eq_true'] at hset
      exact hset
    obtain ⟨ho, hgeti⟩ := findOption_flagMatch_unset _ _ _ _ _ _ hfind hunset
    subst ho
    cases ht : o.type
    case OptBoolean => exact absurd ht hb
    case OptFile => exact absurd ht hf
    all_goals
      refine ⟨fun hok => ih.1 hok, fun m hm => ih.2.1 m hm, fun j oj h1 h2 => ?_⟩
      refine ih.2.2 j oj ?_ h2
      have hne : i ≠ j := by
        intro he
        subst he
        rw [h1] at hgeti
        cases hgeti
        rw [hunset] at h2
        cases h2
      simpa [List.getElem?_set_ne hne] using h1
  | case7 tok st h i o opts hfind hset hb hf ih =>
    rw [parseLoop, if_neg h, hfind]
    simp only
    rw [if_pos hset]
    cases ht : o.type
    case OptBoolean => exact absurd ht hb
    case OptFile => exact absurd ht hf
    all_goals
      exact ⟨fun _ => ih.1 rfl,
             fun m hm => ih.2.1 m (List.mem_append_left _ hm),
             fun j oj h1 h2 => ih.2.2 j oj h1 h2⟩
  | case8 tok rest st h i o opts hfind hset ih =>
    rw [parseLoop, if_neg h, hfind]
    simp only
    rw [if_neg hset]
    rcases findOption_cases st.options tok st.endOfArguments with
      ⟨hsnd, hfst⟩ | ⟨i2, o2, hget, hset2, hfst, hsnd⟩
    · rw [hfind] at hsnd
      simp only at hsnd
      subst hsnd
      exact ⟨fun hok => ih.1 hok, fun m hm => ih.2.1 m hm,
             fun j oj h1 h2 => ih.2.2 j oj h1 h2⟩
    · rw [hfind] at hsnd
      simp only at hsnd
      subst hsnd
      refine ⟨fun hok => ih.1 hok, fun m hm => ih.2.1 m hm, fun j oj h1 h2 => ?_⟩
      refine ih.2.2 j oj ?_ h2
      have hne : i2 ≠ j := by
        intro he
        subst he
        rw [h1] at hget
        cases hget
        rw [hset2] at h2
        cases h2
      simpa [List.getElem?_set_ne hne] using h1
  | case9 tok rest st h snd hfind hf ih =>
    rw [parseLoop, if_neg h, hfind]
    simp only
    rw [if_pos hf]
    exact ⟨fun _ => ih.1 rfl,
           fun m hm => ih.2.1 m (List.mem_append_left _ hm),
           fun j oj h1 h2 => ih.2.2 j oj h1 h2⟩
  | case10 tok rest st h snd hfind hf ih =>
    rw [parseLoop, if_neg h, hfind]
    simp only
    rw [if_neg hf]
    exact ⟨fun hok => ih.1 hok,
           fun m hm => ih.2.1 m (List.mem_append_left _ hm),
           fun j oj h1 h2 => ih.2.2 j oj h1 h2⟩

theorem finishRequired_options (st : ParseState) :
    (finishRequired st).options = st.options := rfl

theorem finishRequired_ok_false (st : ParseState) (h : st.ok = false) :
    (finishRequired st).ok = false := by
  show (checkRequired st.options (st.ok, st.errorMessage)).1 = false
  rw [checkRequired_eq, h]
  rfl

theorem finishRequired_mem (st : ParseState) (m : String)
    (h : m ∈ st.errorMessage) : m ∈ (finishRequired st).errorMessage := by
  show m ∈ (checkRequired st.options (st.ok, st.errorMessage)).2
  rw [checkRequired_eq]
  exact List.mem_append_left _ h

theorem finishRequired_required (st : ParseState) (o : Opt)
    (ho : o ∈ st.options) (hreq : o.required = true) (hset : o.isSet = false) :
    (finishRequired st).ok = false ∧
    ("Argument is required: " ++ getOptionName o) ∈
      (finishRequired st).errorMessage := by
  constructor
  · show (checkRequired st.options (st.ok, st.errorMessage)).1 = false
    rw [checkRequired_eq]
    have hall : st.options.all (fun o => !(o.required && !o.isOptionSet)) = false := by
      rw [List.all_eq_false]
      refine ⟨o, ho, ?_⟩
      simp [hreq, hset, Opt.isOptionSet]
    rw [hall]
    simp
  · show ("Argument is required: " ++ getOptionName o) ∈
      (checkRequired st.options (st.ok, st.errorMessage)).2
    rw [checkRequired_eq]
    apply List.mem_append_right
    apply List.mem_map.mpr
    refine ⟨o, List.mem_filter.mpr ⟨ho, ?_⟩, rfl⟩
    simp [hreq, hset, Opt.isOptionSet]

theorem finishRequired_ok_true (st : ParseState)
    (h2 : ∀ o ∈ st.options, o.required = true → o.isSet = true)
    (h1 : st.ok = true) : (finishRequired st).ok = true := by
  show (checkRequired st.options (st.ok, st.errorMessage)).1 = true
  rw [checkRequired_eq, h1]
  have hall : st.options.all (fun o => !(o.required && !o.isOptionSet)) = true := by
    rw [List.all_eq_true]
    intro o ho
    cases hr : o.required with
    | false => simp [hr]
    | true => simp [hr, Opt.isOptionSet, h2 o ho hr]
  rw [hall]
  rfl

theorem startsWithStr_dash_of_dashdash (s : String)
    (h : startsWithStr s "-" = false) : startsWithStr s "--" = false := by
  rw [startsWithStr] at h ⊢
  have h1 : ("-" : String).data = ['-'] := rfl
  have h2 : ("--" : String).data = ['-', '-'] := rfl
  rw [h1] at h
  rw [h2]
  cases hd : s.data with
  | nil => rfl
  | cons c cs =>
    rw [hd] at h
    simp only [List.isPrefixOf, Bool.and_eq_false_iff] at h ⊢
    rcases h with h | h
    · exact Or.inl h
    · simp [List.isPrefixOf] at h

/-- C1: registering an option through `addOption` with `required = true` and
parsing an empty token list is claimed to fail with an "Argument is
required" error.  The code drops the `req` parameter of `addOption`
(`Option::required` keeps the constructor value `false`), so the parse of
`[]` succeeds with an empty error buffer — the claim describes the evident
intent of the unused parameter, the code a slip. -/
theorem addOption_discards_required :
    (parseArguments c1Options [] [] true "/cwd").ok = true
    ∧ (parseArguments c1Options [] [] true "/cwd").errorMessage = []
    ∧ c1Options.map (fun o => o.required) = [false] := by decide

/-- C2: a flag token matching an option that is already set is silently
absorbed: the scan continues on the remaining tokens in the unchanged
state, so no diagnostic is produced, no value changes, and the remaining
tokens are processed exactly as they would be starting right after the
absorbed token. -/
theorem repeatedFlag_absorbed (f : Bool) (cwd : String) (st : ParseState)
    (tok : String) (rest : List String) (i : Nat) (o : Opt)
    (hne : tok ≠ "--")
    (hfind : findOption st.options tok st.endOfArguments =
      (some (i, o), st.options))
    (hset : o.isSet = true) :
    parseLoop f cwd (tok :: rest) st = parseLoop f cwd rest st := by
  rw [parseLoop, if_neg (by simp [hne]), hfind]
  simp only
  rw [if_neg (by simp [Opt.isOptionSet, hset])]

theorem repeatedFlag_absorbed_witness :
    parseLoop true "/w" ["-v", "x"] ⟨[sampleSetOpt], true, [], false⟩ =
      parseLoop true "/w" ["x"] ⟨[sampleSetOpt], true, [], false⟩ :=
  repeatedFlag_absorbed true "/w" ⟨[sampleSetOpt], true, [], false⟩ "-v" ["x"]
    0 sampleSetOpt (by decide) (by decide) (by decide)

/-- C3 counterexample: with a single positional option, parsing
`["--", "--", "x"]` stores `"x"` (not `"--"`) into the positional slot and
reports nothing: the second literal `"--"` is consumed by the
end-of-arguments check again instead of being treated as positional, so the
claim that every later `"--"` is positional fails here. -/
theorem laterDoubleDash_not_positional :
    (parseArguments [samplePosOpt] [] ["--", "--", "x"] true "/cwd").options.map
      (fun o => o.value) = [Var.str "x"]
    ∧ Var.str "x" ≠ Var.str "--"
    ∧ (parseArguments [samplePosOpt] [] ["--", "--", "x"] true "/cwd").errorMessage = [] := by
  decide

/-- C3 (amended): every token exactly equal to `"--"` — not only the
first — is consumed by the end-of-arguments check and switches
`endOfArguments` on (idempotently after the first); only the tokens other
than `"--"` that follow are treated as positional. -/
theorem doubleDash_always_consumed (f : Bool) (cwd : String)
    (rest : List String) (st : ParseState) :
    parseLoop f cwd ("--" :: rest) st =
      parseLoop f cwd rest { st with endOfArguments := true } := by
  rw [parseLoop, if_pos (by decide)]

/-- C4 counterexample: a FilePath-typed option filled as a positional slot
stores the raw relative token, not the path resolved against the working
directory — the positional branch of `findOption` calls `setValue` with
the token verbatim and the type-specific normalization is skipped. -/
theorem positional_filePath_not_normalized :
    (parseArguments [samplePosFileOpt] [] ["sub.txt"] true "/work").options.map
      (fun o => o.value) = [Var.str "sub.txt"]
    ∧ isAbsolutePath "sub.txt" = false
    ∧ Var.str "sub.txt" ≠ Var.str (childFilePath "/work" "sub.txt") := by
  decide

/-- C4 (amended): a FilePath-typed option that is assigned its value via a
flag-token match stores the normalized path: an absolute next token is
stored unchanged and a relative one is resolved against the current
working directory.  (A FilePath option filled as a positional slot stores
the raw token instead.) -/
theorem filePath_flagMatch_normalized (f : Bool) (cwd : String)
    (st : ParseState) (tok next : String) (rest : List String)
    (i : Nat) (o : Opt)
    (hne : tok ≠ "--")
    (hfind : findOption st.options tok st.endOfArguments =
      (some (i, o), st.options))
    (hunset : o.isSet = false)
    (htype : o.type = OptionType.OptFile) :
    parseLoop f cwd (tok :: next :: rest) st =
      parseLoop f cwd rest
        { st with options := st.options.set i (setValue o (Var.str
            (if isAbsolutePath next then next else childFilePath cwd next))) } := by
  rw [parseLoop, if_neg (by simp [hne]), hfind]
  simp only
  rw [if_pos (by simp [Opt.isOptionSet, hunset]), htype]

theorem filePath_flagMatch_normalized_witness :
    parseLoop true "/work" ["-l", "sub.txt"] ⟨[sampleFileOpt], true, [], false⟩ =
      parseLoop true "/work" []
        { (⟨[sampleFileOpt], true, [], false⟩ : ParseState) with
          options := [sampleFileOpt].set 0 (setValue sampleFileOpt (Var.str
            (if isAbsolutePath "sub.txt" then "sub.txt"
             else childFilePath "/work" "sub.txt"))) } :=
  filePath_flagMatch_normalized true "/work" ⟨[sampleFileOpt], true, [], false⟩
    "-l" "sub.txt" [] 0 sampleFileOpt (by decide) (by decide) rfl rfl

/-- C5: when a flag token matches a not-yet-set non-boolean option and no
token follows it (it is the last token of the scan), the parse ends with
`ok = false`, the diagnostic buffer contains "Missing path for argument
`<token>`" for a FilePath option and "Missing value for argument
`<token>`" for the other value-taking types, and the registry — in
particular the matched option — is left unchanged. -/
theorem missingValue_lastToken (f : Bool) (cwd : String) (st : ParseState)
    (tok : String) (i : Nat) (o : Opt)
    (hne : tok ≠ "--")
    (hfind : findOption st.options tok st.endOfArguments =
      (some (i, o), st.options))
    (hunset : o.isSet = false)
    (hbool : o.type ≠ OptionType.OptBoolean) :
    (finishRequired (parseLoop f cwd [tok] st)).ok = false
    ∧ (o.type = OptionType.OptFile →
        ("Missing path for argument " ++ tok) ∈
          (finishRequired (parseLoop f cwd [tok] st)).errorMessage)
    ∧ (o.type ≠ OptionType.OptFile →
        ("Missing value for argument " ++ tok) ∈
          (finishRequired (parseLoop f cwd [tok] st)).errorMessage)
    ∧ (finishRequired (parseLoop f cwd [tok] st)).options = st.options := by
  have hstep : parseLoop f cwd [tok] st =
      if o.type = OptionType.OptFile then
        { st with
          ok := false
          errorMessage := appendErrorMessage st.errorMessage
            ("Missing path for argument " ++ tok) }
      else
        { st with
          ok := false
          errorMessage := appendErrorMessage st.errorMessage
            ("Missing value for argument " ++ tok) } := by
    rw [parseLoop, if_neg (by simp [hne]), hfind]
    simp only
    rw [if_pos (by simp [Opt.isOptionSet, hunset])]
    cases ht : o.type
    case OptBoolean => exact absurd ht hbool
    case OptFile =>
      rw [if_pos rfl]
      rfl
    all_goals
      rw [if_neg (by simp [ht])]
      rfl
  by_cases hft : o.type = OptionType.OptFile
  · rw [if_pos hft] at hstep
    rw [hstep]
    refine ⟨finishRequired_ok_false _ rfl, fun _ => ?_,
            fun hc => absurd hft hc, rfl⟩
    exact finishRequired_mem _ _ (by simp [appendErrorMessage])
  · rw [if_neg hft] at hstep
    rw [hstep]
    refine ⟨finishRequired_ok_false _ rfl, fun hc => absurd hc hft,
            fun _ => ?_, rfl⟩
    exact finishRequired_mem _ _ (by simp [appendErrorMessage])

theorem missingValue_lastToken_witness :
    (finishRequired (parseLoop true "/w" ["-n"]
        ⟨[sampleStrOpt], true, [], false⟩)).ok = false
    ∧ (sampleStrOpt.type = OptionType.OptFile →
        ("Missing path for argument " ++ "-n") ∈
          (finishRequired (parseLoop true "/w" ["-n"]
            ⟨[sampleStrOpt], true, [], false⟩)).errorMessage)
    ∧ (sampleStrOpt.type ≠ OptionType.OptFile →
        ("Missing value for argument " ++ "-n") ∈
          (finishRequired (parseLoop true "/w" ["-n"]
            ⟨[sampleStrOpt], true, [], false⟩)).errorMessage)
    ∧ (finishRequired (parseLoop true "/w" ["-n"]
        ⟨[sampleStrOpt], true, [], false⟩)).options = [sampleStrOpt] :=
  missingValue_lastToken true "/w" ⟨[sampleStrOpt], true, [], false⟩ "-n"
    0 sampleStrOpt (by decide) (by decide) rfl (by decide)

/-- C6: a token matched by no registered option is reported in the shared
diagnostic buffer: in strict mode as "Unknown option: `<token>`" with the
parse returning false, otherwise as "Ignoring unknown option: `<token>`"
with the success flag left untouched by that token (the scan continues in
the same state except for the appended message). -/
theorem unknownOption_diagnostics (f : Bool) (cwd : String) (st : ParseState)
    (tok : String) (rest : List String)
    (hne : tok ≠ "--")
    (hfind : findOption st.options tok st.endOfArguments = (none, st.options)) :
    (f = true →
      parseLoop f cwd (tok :: rest) st =
        parseLoop f cwd rest
          { st with
            ok := false
            errorMessage := appendErrorMessage st.errorMessage
              ("Unknown option: " ++ tok) }
      ∧ (finishRequired (parseLoop f cwd (tok :: rest) st)).ok = false
      ∧ ("Unknown option: " ++ tok) ∈
          (finishRequired (parseLoop f cwd (tok :: rest) st)).errorMessage)
    ∧ (f = false →
      parseLoop f cwd (tok :: rest) st =
        parseLoop f cwd rest
          { st with
            errorMessage := appendErrorMessage st.errorMessage
              ("Ignoring unknown option: " ++ tok) }
      ∧ ("Ignoring unknown option: " ++ tok) ∈
          (finishRequired (parseLoop f cwd (tok :: rest) st)).errorMessage) := by
  constructor
  · intro hf
    subst hf
    have hstep : parseLoop true cwd (tok :: rest) st =
        parseLoop true cwd rest
          { st with
            ok := false
            errorMessage := appendErrorMessage st.errorMessage
              ("Unknown option: " ++ tok) } := by
      rw [parseLoop, if_neg (by simp [hne]), hfind]
      rfl
    refine ⟨hstep, ?_, ?_⟩
    · rw [hstep]
      exact finishRequired_ok_false _
        ((parseLoop_frame true cwd rest _).1 rfl)
    · rw [hstep]
      refine finishRequired_mem _ _ ?_
      exact (parseLoop_frame true cwd rest _).2.1 _ (by simp [appendErrorMessage])
  · intro hf
    subst hf
    have hstep : parseLoop false cwd (tok :: rest) st =
        parseLoop false cwd rest
          { st with
            errorMessage := appendErrorMessage st.errorMessage
              ("Ignoring unknown option: " ++ tok) } := by
      rw [parseLoop, if_neg (by simp [hne]), hfind]
      rfl
    refine ⟨hstep, ?_⟩
    rw [hstep]
    refine finishRequired_mem _ _ ?_
    exact (parseLoop_frame false cwd rest _).2.1 _ (by simp [appendErrorMessage])

theorem unknownOption_diagnostics_witness :
    (("Unknown option: " ++ "--zzz") ∈
      (finishRequired (parseLoop true "/w" ["--zzz"]
        ⟨[], true, [], false⟩)).errorMessage)
    ∧ (finishRequired (parseLoop true "/w" ["--zzz"]
        ⟨[], true, [], false⟩)).ok = false
    ∧ (("Ignoring unknown option: " ++ "--zzz") ∈
      (finishRequired (parseLoop false "/w" ["--zzz"]
        ⟨[], true, [], false⟩)).errorMessage) :=
  ⟨((unknownOption_diagnostics true "/w" ⟨[], true, [], false⟩ "--zzz" []
      (by decide) (by decide)).1 rfl).2.2,
   ((unknownOption_diagnostics true "/w" ⟨[], true, [], false⟩ "--zzz" []
      (by decide) (by decide)).1 rfl).2.1,
   ((unknownOption_diagnostics false "/w" ⟨[], true, [], false⟩ "--zzz" []
      (by decide) (by decide)).2 rfl).2⟩

/-- C7: after the token scan, every registered option that is required and
not set contributes an "Argument is required: `<getOptionName>`" message
and forces `parseArguments` to return false; and when no such option
remains and the scan itself produced no error, `parseArguments` returns
true. -/
theorem requiredOptions_checked (options : List Opt) (prev args : List String)
    (f : Bool) (cwd : String) :
    (∀ o, o ∈ (scanState options args f cwd).options → o.required = true →
      o.isSet = false →
      (parseArguments options prev args f cwd).ok = false
      ∧ ("Argument is required: " ++ getOptionName o) ∈
          (parseArguments options prev args f cwd).errorMessage)
    ∧ ((∀ o, o ∈ (scanState options args f cwd).options →
          o.required = true → o.isSet = true) →
        (scanState options args f cwd).ok = true →
        (parseArguments options prev args f cwd).ok = true) := by
  constructor
  · intro o ho hreq hset
    exact finishRequired_required (scanState options args f cwd) o ho hreq hset
  · intro hall hok
    exact finishRequired_ok_true (scanState options args f cwd) hall hok

theorem requiredOptions_checked_witness :
    ((parseArguments [sampleReqOpt] [] [] true "/cwd").ok = false
    ∧ ("Argument is required: " ++ getOptionName sampleReqOpt) ∈
        (parseArguments [sampleReqOpt] [] [] true "/cwd").errorMessage)
    ∧ (parseArguments [sampleStrOpt] [] [] true "/cwd").ok = true :=
  ⟨(requiredOptions_checked [sampleReqOpt] [] [] true "/cwd").1 sampleReqOpt
     (by decide) rfl rfl,
   (requiredOptions_checked [sampleStrOpt] [] [] true "/cwd").2
     (by decide) rfl⟩

/-- C8 counterexample: a literal `"--"` token occurring past the
end-of-arguments marker is consumed by the marker check again and is never
stored into the free positional slot, so the slot stays unset — refuting
the claim for that token. -/
theorem doubleDash_pastMarker_not_stored :
    (parseArguments [samplePosOpt] [] ["--", "--"] true "/w").options.map
      (fun o => (o.value, o.isSet)) = [(Var.void, false)]
    ∧ (Var.void, false) ≠ (Var.str "--", true) := by
  decide

/-- C8 (amended): a token other than the literal `"--"` that is scanned
past the end-of-arguments marker, or that bears no dash prefix, is resolved
by the positional branch: it is stored verbatim (via `setValue`) into the
first option in registry order whose short form and long form are both
empty and which is not yet set, and the scan continues with that option
marked set. -/
theorem positional_fill (f : Bool) (cwd : String) (st : ParseState)
    (tok : String) (rest : List String) (i : Nat) (o : Opt)
    (hne : tok ≠ "--")
    (hbranch : st.endOfArguments = true ∨ startsWithStr tok "-" = false)
    (hidx : findWithIndex (fun o => o.arg == "" && o.longArg == "" && !o.isOptionSet)
      st.options = some (i, o)) :
    findOption st.options tok st.endOfArguments =
      (some (i, setValue o (Var.str tok)),
       st.options.set i (setValue o (Var.str tok)))
    ∧ parseLoop f cwd (tok :: rest) st =
        parseLoop f cwd rest
          { st with options := st.options.set i (setValue o (Var.str tok)) } := by
  have hcond2 : (!st.endOfArguments && startsWithStr tok "-") = false := by
    rcases hbranch with h | h
    · rw [h]
      rfl
    · rw [h]
      simp
  have hcond1 : (!st.endOfArguments && startsWithStr tok "--") = false := by
    rcases hbranch with h | h
    · rw [h]
      rfl
    · rw [startsWithStr_dash_of_dashdash tok h]
      simp
  have hfind : findOption st.options tok st.endOfArguments =
      (some (i, setValue o (Var.str tok)),
       st.options.set i (setValue o (Var.str tok))) := by
    rw [findOption, if_neg (by simp [hcond1]), if_neg (by simp [hcond2]), hidx]
  refine ⟨hfind, ?_⟩
  rw [parseLoop, if_neg (by simp [hne]), hfind]
  simp only
  rw [if_neg (by simp [Opt.isOptionSet, setValue])]

theorem positional_fill_witness :
    findOption [samplePosOpt] "-x" true =
      (some (0, setValue samplePosOpt (Var.str "-x")),
       [samplePosOpt].set 0 (setValue samplePosOpt (Var.str "-x")))
    ∧ parseLoop true "/w" ["-x"] ⟨[samplePosOpt], true, [], true⟩ =
        parseLoop true "/w" []
          { (⟨[samplePosOpt], true, [], true⟩ : ParseState) with
            options := [samplePosOpt].set 0 (setValue samplePosOpt (Var.str "-x")) } :=
  positional_fill true "/w" ⟨[samplePosOpt], true, [], true⟩ "-x" [] 0
    samplePosOpt (by decide) (Or.inl rfl) (by decide)

/-- C9: when the registry contains an option whose short form is empty, the
bare token `"-"` (before the end-of-arguments marker) is matched by the
short-form branch against the first such option — the remainder after the
single dash is the empty string — and the registry is returned unchanged,
so the token is not treated as positional. -/
theorem dash_matches_empty_short (options : List Opt) (i : Nat) (o : Opt)
    (hidx : findWithIndex (fun o => o.arg == "") options = some (i, o)) :
    findOption options "-" false = (some (i, o), options) := by
  rw [findOption, if_neg (by decide), if_pos (by decide)]
  have hsub : substringFrom "-" 1 = "" := rfl
  rw [hsub, hidx]

theorem dash_matches_empty_short_witness :
    findOption [sampleLongOnlyOpt] "-" false =
      (some (0, sampleLongOnlyOpt), [sampleLongOnlyOpt]) :=
  dash_matches_empty_short [sampleLongOnlyOpt] 0 sampleLongOnlyOpt (by decide)

/-- C10: `parseArguments` starts from a cleared diagnostic buffer — the
previously accumulated messages are discarded — and never resets an
option's value or set flag: any option that enters the call already set is
returned unchanged (same value, still set), so a later call on the same
registry sees it as already set. -/
theorem parse_preserves_set_options (options : List Opt)
    (prev args : List String) (f : Bool) (cwd : String) (i : Nat) (o : Opt)
    (hget : options[i]? = some o) (hset : o.isSet = true) :
    (parseArguments options prev args f cwd).options[i]? = some o
    ∧ parseArguments options prev args f cwd =
        parseArguments options [] args f cwd := by
  constructor
  · exact (parseLoop_frame f cwd args
      ⟨options, true, [], false⟩).2.2 i o hget hset
  · rfl

theorem parse_preserves_set_options_witness :
    (parseArguments [sampleSetOpt] ["old message"] ["-v", "b"] true "/w").options[0]? =
      some sampleSetOpt
    ∧ parseArguments [sampleSetOpt] ["old message"] ["-v", "b"] true "/w" =
        parseArguments [sampleSetOpt] [] ["-v", "b"] true "/w" :=
  parse_preserves_set_options [sampleSetOpt] ["old message"] ["-v", "b"]
    true "/w" 0 sampleSetOpt (by decide) (by decide)
